import Mathlib

/-!
Shallow embedding of the tmux-mcp server (two source versions: `src/index.ts`
with six tools, and the extended version with nine tools).

Each tool handler translates its typed arguments into one shell command
string and runs it through a subprocess executor.  The executor is modelled
as a `World : String → ExecOutcome` (the behaviour of the outside world on
each command line), and every handler returns, besides its outcome, the
trace of command lines it passed to the executor.  A thrown JS exception is
modelled as `Except.error`; the dispatcher catches it and renders the
uniform `Error: …` text reply.

JavaScript semantics modelled explicitly:
  * truthiness of an optional string field (`if (args.x)`): absent or `""`
    is falsy (`strTruthy`);
  * template interpolation of a possibly-absent field renders `undefined`
    (`jsStr`);
  * `args.enter !== false`: only an explicit `false` disables;
  * array/object fields are truthy whenever present (even when empty).
-/

/-- One block of a tool-call reply: a `type` tag (always `"text"` here) and the payload. -/
structure ContentBlock where
  type : String
  text : String
deriving Repr, DecidableEq

/-- The uniform reply shape: a list of content blocks. -/
structure CallResult where
  content : List ContentBlock
deriving Repr, DecidableEq

/-- The reply every handler builds: a single text block. -/
def textResult (s : String) : CallResult := ⟨[⟨"text", s⟩]⟩

/-- Captured output of a completed subprocess. -/
structure ExecResult where
  stdout : String
  stderr : String
deriving Repr, DecidableEq

/-- Outcome of running one command line: captured output, or a rejection
(non-zero exit / spawn failure) carrying the error message. -/
inductive ExecOutcome where
  | ok : ExecResult → ExecOutcome
  | err : String → ExecOutcome
deriving Repr, DecidableEq

/-- The behaviour of the subprocess executor on each command line. -/
def World : Type := String → ExecOutcome

/-- The dynamic argument object of a call request.  The TS dispatcher passes
`args as any` to every handler, so one record with all optional fields
models the untyped field mapping; `none` is JS `undefined`. -/
structure Args where
  direction : Option String := none
  command : Option String := none
  directory : Option String := none
  name : Option String := none
  keys : Option String := none
  pane : Option String := none
  enter : Option Bool := none
  file : Option String := none
  split : Option String := none
  vault : Option String := none
  note_name : Option String := none
  args : Option (List String) := none
  env : Option (List (String × String)) := none
  transport : Option String := none
  url : Option String := none
deriving Repr, DecidableEq

/-- JS truthiness of an optional string field: `undefined` and `""` are falsy. -/
def strTruthy : Option String → Bool
  | none => false
  | some s => !(s == "")

/-- JS template interpolation of a possibly-`undefined` string field. -/
def jsStr : Option String → String
  | none => "undefined"
  | some s => s

/-- Access a string field after a truthiness guard established it is present. -/
def getS (o : Option String) : String := o.getD ""

/-- A wall-clock instant, as the components JS `Date` exposes (UTC). -/
structure DateTime where
  year : Nat
  month : Nat
  day : Nat
  hour : Nat
  minute : Nat
  second : Nat
  ms : Nat
deriving Repr, DecidableEq

/-- Decimal rendering padded with leading zeros to `width`, as
`Date.prototype.toISOString` formats each component (exact for values whose
decimal form fits in `width` digits, which `ValidTime` guarantees). -/
def padNum (width n : Nat) : String :=
  String.mk (List.replicate (width - (Nat.repr n).length) '0') ++ Nat.repr n

/-- Modelled from the JS runtime: `Date.prototype.toISOString`, i.e.
`YYYY-MM-DDTHH:MM:SS.sssZ` for years 0–9999. -/
def toISOString (d : DateTime) : String :=
  padNum 4 d.year ++ "-" ++ padNum 2 d.month ++ "-" ++ padNum 2 d.day ++ "T" ++
    padNum 2 d.hour ++ ":" ++ padNum 2 d.minute ++ ":" ++ padNum 2 d.second ++ "." ++
    padNum 3 d.ms ++ "Z"

/-- JS `s.slice(0, n)` for a non-negative bound. -/
def jsSlice (s : String) (n : Nat) : String := String.mk (s.toList.take n)

/-- Replace the first occurrence of character `t` by `r`. -/
def replFirst (t r : Char) : List Char → List Char
  | [] => []
  | c :: cs => if c = t then r :: cs else c :: replFirst t r cs

/-- JS `s.replace('T', '_')`: first occurrence only (the pattern is one character). -/
def jsReplaceFirst (s : String) (t r : Char) : String := String.mk (replFirst t r s.toList)

/-- JS `s.replace(/:/g, '-')`: every occurrence of a one-character pattern. -/
def jsReplaceAll (s : String) (t r : Char) : String :=
  String.mk (s.toList.map fun c => if c = t then r else c)

/-- The default note filename of `openObsidianNote`:
`new Date().toISOString().slice(0, 19).replace('T', '_').replace(/:/g, '-') + '.md'`. -/
def defaultNoteName (d : DateTime) : String :=
  jsReplaceAll (jsReplaceFirst (jsSlice (toISOString d) 19) 'T' '_') ':' '-' ++ ".md"

/-- A wall-clock reading the real clock can produce (four-digit year, valid
calendar fields). -/
def ValidTime (d : DateTime) : Prop :=
  d.year ≤ 9999 ∧ 1 ≤ d.month ∧ d.month ≤ 12 ∧ 1 ≤ d.day ∧ d.day ≤ 31 ∧
    d.hour ≤ 23 ∧ d.minute ≤ 59 ∧ d.second ≤ 59

/-- Does the needle occur contiguously at the head of the haystack? -/
def matchHere : List Char → List Char → Bool
  | [], _ => true
  | _ :: _, [] => false
  | a :: n, b :: h => a == b && matchHere n h

/-- Does the needle occur contiguously anywhere in the haystack? -/
def occursIn : List Char → List Char → Bool
  | n, [] => matchHere n []
  | n, b :: t => matchHere n (b :: t) || occursIn n t

/-- String containment, for stating that a command never mentions a program. -/
def strOccurs (needle hay : String) : Bool := occursIn needle.toList hay.toList

/-- `s` begins with `p`. -/
def beginsWith (p s : String) : Prop := ∃ t, s = p ++ t

/-- `s` ends with `p`. -/
def endsWith (p s : String) : Prop := ∃ t, s = t ++ p

/-- The `await execAsync(cmd)` step followed by building the reply text: one
subprocess execution (recorded in the trace), whose rejection propagates as
a thrown error and whose captured output feeds the reply. -/
def runCmd (w : World) (cmd : String) (reply : ExecResult → String) :
    Except String CallResult × List String :=
  match w cmd with
  | .err m => (.error m, [cmd])
  | .ok o => (.ok (textResult (reply o)), [cmd])

namespace V2

/-- `splitWindow` of the nine-tool version: `tmux split-window` with the
direction flag, optional `-c` directory and optional command. -/
def splitWindow (w : World) (a : Args) : Except String CallResult × List String :=
  let splitFlag := if a.direction == some "horizontal" then "-h" else "-v"
  let cmd := "tmux split-window " ++ splitFlag
  let cmd := if strTruthy a.directory then cmd ++ " -c \"" ++ getS a.directory ++ "\"" else cmd
  let cmd := if strTruthy a.command then cmd ++ " \"" ++ getS a.command ++ "\"" else cmd
  runCmd w cmd fun _ =>
    "Split window " ++ jsStr a.direction ++ "ly" ++
      (if strTruthy a.command then " and ran: " ++ getS a.command else "")

/-- `newWindow`: `tmux new-window` with optional name, directory and command. -/
def newWindow (w : World) (a : Args) : Except String CallResult × List String :=
  let cmd := "tmux new-window"
  let cmd := if strTruthy a.name then cmd ++ " -n \"" ++ getS a.name ++ "\"" else cmd
  let cmd := if strTruthy a.directory then cmd ++ " -c \"" ++ getS a.directory ++ "\"" else cmd
  let cmd := if strTruthy a.command then cmd ++ " \"" ++ getS a.command ++ "\"" else cmd
  runCmd w cmd fun _ =>
    "Created new window" ++ (if strTruthy a.name then " \x27" ++ getS a.name ++ "\x27" else "")

/-- The fixed session-listing command line, formatting template included. -/
def listSessionsCmd : String :=
  "tmux list-sessions -F \"#\x7bsession_name\x7d: #\x7bsession_windows\x7d windows\""

/-- `listSessions`: runs the fixed listing command and prefixes its stdout. -/
def listSessions (w : World) : Except String CallResult × List String :=
  runCmd w listSessionsCmd fun o => "Tmux sessions:\n" ++ o.stdout

/-- The fixed window-listing command line. -/
def listWindowsCmd : String :=
  "tmux list-windows -F \"#\x7bwindow_index\x7d: #\x7bwindow_name\x7d (#\x7bwindow_panes\x7d panes)\""

/-- `listWindows`: runs the fixed listing command and prefixes its stdout. -/
def listWindows (w : World) : Except String CallResult × List String :=
  runCmd w listWindowsCmd fun o => "Current session windows:\n" ++ o.stdout

/-- `sendKeys`: `tmux send-keys` with optional target pane, the literal keys,
and an `Enter` token unless `enter` is explicitly `false`. -/
def sendKeys (w : World) (a : Args) : Except String CallResult × List String :=
  let cmd := "tmux send-keys"
  let cmd := if strTruthy a.pane then cmd ++ " -t \"" ++ getS a.pane ++ "\"" else cmd
  let cmd := cmd ++ " \"" ++ jsStr a.keys ++ "\""
  let cmd := if a.enter ≠ some false then cmd ++ " Enter" else cmd
  runCmd w cmd fun _ =>
    "Sent keys: " ++ jsStr a.keys ++ (if a.enter ≠ some false then " (with Enter)" else "")

/-- `openNvim`: split a pane (default horizontal) and run nvim, optionally on a file. -/
def openNvim (w : World) (a : Args) : Except String CallResult × List String :=
  let splitFlag := if a.split == some "vertical" then "-v" else "-h"
  let cmd := "tmux split-window " ++ splitFlag
  let cmd := if strTruthy a.directory then cmd ++ " -c \"" ++ getS a.directory ++ "\"" else cmd
  let nvimCmd := if strTruthy a.file then "nvim \"" ++ getS a.file ++ "\"" else "nvim"
  let cmd := cmd ++ " \"" ++ nvimCmd ++ "\""
  runCmd w cmd fun _ =>
    "Opened nvim" ++ (if strTruthy a.file then " with file: " ++ getS a.file else "") ++
      " in new pane"

/-- The hard-coded vault directory. -/
def obsidianBase : String :=
  "/Users/ldraney/Library/Mobile Documents/iCloud~md~obsidian/Documents"

/-- `openObsidianNote`: with no vault, list the vault directory (read-only);
otherwise split a pane with nvim on a note path under the vault, the note
name defaulting to the timestamp-derived filename. -/
def openObsidianNote (w : World) (now : DateTime) (a : Args) :
    Except String CallResult × List String :=
  if !(strTruthy a.vault) then
    runCmd w ("ls \"" ++ obsidianBase ++ "\"") fun o => "Available vaults:\n" ++ o.stdout
  else
    let vaultPath := obsidianBase ++ "/" ++ getS a.vault
    let noteName := if strTruthy a.note_name then getS a.note_name else defaultNoteName now
    let filePath := vaultPath ++ "/" ++ noteName
    let splitFlag := if a.split == some "vertical" then "-v" else "-h"
    let cmd := "tmux split-window " ++ splitFlag ++ " -c \"" ++ vaultPath ++
      "\" \"nvim \x27" ++ filePath ++ "\x27\""
    runCmd w cmd fun _ =>
      "Opened new Obsidian note \"" ++ noteName ++ "\" in vault \"" ++ getS a.vault ++ "\""

/-- `claudeMcpAdd`: assembles `claude mcp add` with transport/env flags, the
server name, then either the URL (sse/http, required) or the command plus
trailing arguments (stdio, command required).  A missing required field
throws before the executor runs. -/
def claudeMcpAdd (w : World) (a : Args) : Except String CallResult × List String :=
  let cmd := "claude mcp add"
  let cmd := match a.transport with
    | some t => if t != "" && t != "stdio" then cmd ++ " --transport " ++ t else cmd
    | none => cmd
  let cmd := match a.env with
    | some es => es.foldl (fun c kv => c ++ " --env " ++ kv.1 ++ "=" ++ kv.2) cmd
    | none => cmd
  let cmd := cmd ++ " " ++ jsStr a.name
  let cmdE : Except String String :=
    if a.transport == some "sse" || a.transport == some "http" then
      if !(strTruthy a.url) then .error "URL is required for sse/http transport"
      else .ok (cmd ++ " " ++ getS a.url)
    else
      if !(strTruthy a.command) then .error "Command is required for stdio transport"
      else
        let cmd := cmd ++ " " ++ getS a.command
        match a.args with
        | some l => .ok (cmd ++ " " ++ String.intercalate " " l)
        | none => .ok cmd
  match cmdE with
  | .error m => (.error m, [])
  | .ok cmd =>
    runCmd w cmd fun o =>
      "Added MCP server \"" ++ jsStr a.name ++ "\"\n" ++ o.stdout ++
        (if o.stderr != "" then "\nErrors: " ++ o.stderr else "")

/-- `claudeMcpList`: runs the fixed `claude mcp list` command. -/
def claudeMcpList (w : World) : Except String CallResult × List String :=
  runCmd w "claude mcp list" fun o => "Configured MCP servers:\n" ++ o.stdout

/-- The tool names the nine-tool version declares in its registry. -/
def toolNames : List String :=
  ["tmux_split_window", "tmux_new_window", "tmux_list_sessions", "tmux_list_windows",
   "tmux_send_keys", "tmux_open_nvim", "tmux_open_obsidian_note", "claude_mcp_add",
   "claude_mcp_list"]

/-- The `try` block of the call-request handler: dispatch on the tool name;
an unknown name throws `Unknown tool: …`. -/
def dispatch (w : World) (now : DateTime) (name : String) (a : Args) :
    Except String CallResult × List String :=
  match name with
  | "tmux_split_window" => splitWindow w a
  | "tmux_new_window" => newWindow w a
  | "tmux_list_sessions" => listSessions w
  | "tmux_list_windows" => listWindows w
  | "tmux_send_keys" => sendKeys w a
  | "tmux_open_nvim" => openNvim w a
  | "tmux_open_obsidian_note" => openObsidianNote w now a
  | "claude_mcp_add" => claudeMcpAdd w a
  | "claude_mcp_list" => claudeMcpList w
  | _ => (.error ("Unknown tool: " ++ name), [])

/-- The whole call-request handler: dispatch plus the `catch` that turns any
thrown error into a normal single-text-block reply prefixed `Error: `. -/
def handleCall (w : World) (now : DateTime) (name : String) (a : Args) :
    CallResult × List String :=
  match dispatch w now name a with
  | (.ok res, t) => (res, t)
  | (.error m, t) => (textResult ("Error: " ++ m), t)

end V2

namespace V1

/-- `splitWindow` of the six-tool version (`src/index.ts`). -/
def splitWindow (w : World) (a : Args) : Except String CallResult × List String :=
  let splitFlag := if a.direction == some "horizontal" then "-h" else "-v"
  let cmd := "tmux split-window " ++ splitFlag
  let cmd := if strTruthy a.directory then cmd ++ " -c \"" ++ getS a.directory ++ "\"" else cmd
  let cmd := if strTruthy a.command then cmd ++ " \"" ++ getS a.command ++ "\"" else cmd
  runCmd w cmd fun _ =>
    "Split window " ++ jsStr a.direction ++ "ly" ++
      (if strTruthy a.command then " and ran: " ++ getS a.command else "")

/-- `newWindow` of the six-tool version. -/
def newWindow (w : World) (a : Args) : Except String CallResult × List String :=
  let cmd := "tmux new-window"
  let cmd := if strTruthy a.name then cmd ++ " -n \"" ++ getS a.name ++ "\"" else cmd
  let cmd := if strTruthy a.directory then cmd ++ " -c \"" ++ getS a.directory ++ "\"" else cmd
  let cmd := if strTruthy a.command then cmd ++ " \"" ++ getS a.command ++ "\"" else cmd
  runCmd w cmd fun _ =>
    "Created new window" ++ (if strTruthy a.name then " \x27" ++ getS a.name ++ "\x27" else "")

/-- The fixed session-listing command of the six-tool version. -/
def listSessionsCmd : String :=
  "tmux list-sessions -F \"#\x7bsession_name\x7d: #\x7bsession_windows\x7d windows\""

/-- `listSessions` of the six-tool version. -/
def listSessions (w : World) : Except String CallResult × List String :=
  runCmd w listSessionsCmd fun o => "Tmux sessions:\n" ++ o.stdout

/-- The fixed window-listing command of the six-tool version. -/
def listWindowsCmd : String :=
  "tmux list-windows -F \"#\x7bwindow_index\x7d: #\x7bwindow_name\x7d (#\x7bwindow_panes\x7d panes)\""

/-- `listWindows` of the six-tool version. -/
def listWindows (w : World) : Except String CallResult × List String :=
  runCmd w listWindowsCmd fun o => "Current session windows:\n" ++ o.stdout

/-- `sendKeys` of the six-tool version. -/
def sendKeys (w : World) (a : Args) : Except String CallResult × List String :=
  let cmd := "tmux send-keys"
  let cmd := if strTruthy a.pane then cmd ++ " -t \"" ++ getS a.pane ++ "\"" else cmd
  let cmd := cmd ++ " \"" ++ jsStr a.keys ++ "\""
  let cmd := if a.enter ≠ some false then cmd ++ " Enter" else cmd
  runCmd w cmd fun _ =>
    "Sent keys: " ++ jsStr a.keys ++ (if a.enter ≠ some false then " (with Enter)" else "")

/-- `openNvim` of the six-tool version. -/
def openNvim (w : World) (a : Args) : Except String CallResult × List String :=
  let splitFlag := if a.split == some "vertical" then "-v" else "-h"
  let cmd := "tmux split-window " ++ splitFlag
  let cmd := if strTruthy a.directory then cmd ++ " -c \"" ++ getS a.directory ++ "\"" else cmd
  let nvimCmd := if strTruthy a.file then "nvim \"" ++ getS a.file ++ "\"" else "nvim"
  let cmd := cmd ++ " \"" ++ nvimCmd ++ "\""
  runCmd w cmd fun _ =>
    "Opened nvim" ++ (if strTruthy a.file then " with file: " ++ getS a.file else "") ++
      " in new pane"

/-- The tool names the six-tool version declares in its registry. -/
def toolNames : List String :=
  ["tmux_split_window", "tmux_new_window", "tmux_list_sessions", "tmux_list_windows",
   "tmux_send_keys", "tmux_open_nvim"]

/-- The `try` block of the six-tool call-request handler. -/
def dispatch (w : World) (name : String) (a : Args) :
    Except String CallResult × List String :=
  match name with
  | "tmux_split_window" => splitWindow w a
  | "tmux_new_window" => newWindow w a
  | "tmux_list_sessions" => listSessions w
  | "tmux_list_windows" => listWindows w
  | "tmux_send_keys" => sendKeys w a
  | "tmux_open_nvim" => openNvim w a
  | _ => (.error ("Unknown tool: " ++ name), [])

/-- The six-tool call-request handler with its `catch`. -/
def handleCall (w : World) (name : String) (a : Args) : CallResult × List String :=
  match dispatch w name a with
  | (.ok res, t) => (res, t)
  | (.error m, t) => (textResult ("Error: " ++ m), t)

end V1

/-- A world whose every command succeeds with empty output. -/
def w0 : World := fun _ => .ok ⟨"", ""⟩

/-- A world whose every command succeeds with different, non-empty output. -/
def wB : World := fun _ => .ok ⟨"some other stdout", "some stderr"⟩

/-- A fixed wall-clock instant used by concrete witnesses. -/
def t0 : DateTime := ⟨2025, 10, 11, 12, 34, 56, 789⟩

/-! ### Executor lemmas -/

theorem data_append (s t : String) : (s ++ t).data = s.data ++ t.data := rfl

theorem runCmd_trace (w : World) (c : String) (f : ExecResult → String) :
    (runCmd w c f).2 = [c] := by
  unfold runCmd; split <;> rfl

theorem runCmd_ok (w : World) (c : String) (f : ExecResult → String) (r : CallResult)
    (t : List String) (h : runCmd w c f = (.ok r, t)) :
    ∃ o, w c = .ok o ∧ r = textResult (f o) ∧ t = [c] := by
  unfold runCmd at h
  split at h
  · simp_all
  · simp only [Prod.mk.injEq, Except.ok.injEq] at h
    exact ⟨_, by assumption, h.1.symm, h.2.symm⟩

theorem runCmd_of_ok (w : World) (c : String) (f : ExecResult → String) (o : ExecResult)
    (h : w c = .ok o) : runCmd w c f = (.ok (textResult (f o)), [c]) := by
  unfold runCmd; rw [h]

/-! ### Per-handler shape lemmas: every successful reply is a single text
block, and at most one command is executed. -/

theorem splitWindow_shape (w : World) (a : Args) :
    (∀ r t, V2.splitWindow w a = (.ok r, t) → ∃ s, r = textResult s) ∧
    (V2.splitWindow w a).2.length ≤ 1 := by
  refine ⟨fun r t h => ?_, ?_⟩
  · obtain ⟨o, -, hr, -⟩ := runCmd_ok _ _ _ _ _ h
    exact ⟨_, hr⟩
  · unfold V2.splitWindow
    rw [runCmd_trace]
    simp

theorem newWindow_shape (w : World) (a : Args) :
    (∀ r t, V2.newWindow w a = (.ok r, t) → ∃ s, r = textResult s) ∧
    (V2.newWindow w a).2.length ≤ 1 := by
  refine ⟨fun r t h => ?_, ?_⟩
  · obtain ⟨o, -, hr, -⟩ := runCmd_ok _ _ _ _ _ h
    exact ⟨_, hr⟩
  · unfold V2.newWindow
    rw [runCmd_trace]
    simp

theorem listSessions_shape (w : World) :
    (∀ r t, V2.listSessions w = (.ok r, t) → ∃ s, r = textResult s) ∧
    (V2.listSessions w).2.length ≤ 1 := by
  refine ⟨fun r t h => ?_, ?_⟩
  · obtain ⟨o, -, hr, -⟩ := runCmd_ok _ _ _ _ _ h
    exact ⟨_, hr⟩
  · unfold V2.listSessions
    rw [runCmd_trace]
    simp

theorem listWindows_shape (w : World) :
    (∀ r t, V2.listWindows w = (.ok r, t) → ∃ s, r = textResult s) ∧
    (V2.listWindows w).2.length ≤ 1 := by
  refine ⟨fun r t h => ?_, ?_⟩
  · obtain ⟨o, -, hr, -⟩ := runCmd_ok _ _ _ _ _ h
    exact ⟨_, hr⟩
  · unfold V2.listWindows
    rw [runCmd_trace]
    simp

theorem sendKeys_shape (w : World) (a : Args) :
    (∀ r t, V2.sendKeys w a = (.ok r, t) → ∃ s, r = textResult s) ∧
    (V2.sendKeys w a).2.length ≤ 1 := by
  refine ⟨fun r t h => ?_, ?_⟩
  · obtain ⟨o, -, hr, -⟩ := runCmd_ok _ _ _ _ _ h
    exact ⟨_, hr⟩
  · unfold V2.sendKeys
    rw [runCmd_trace]
    simp

theorem openNvim_shape (w : World) (a : Args) :
    (∀ r t, V2.openNvim w a = (.ok r, t) → ∃ s, r = textResult s) ∧
    (V2.openNvim w a).2.length ≤ 1 := by
  refine ⟨fun r t h => ?_, ?_⟩
  · obtain ⟨o, -, hr, -⟩ := runCmd_ok _ _ _ _ _ h
    exact ⟨_, hr⟩
  · unfold V2.openNvim
    rw [runCmd_trace]
    simp

theorem obsNote_shape (w : World) (now : DateTime) (a : Args) :
    (∀ r t, V2.openObsidianNote w now a = (.ok r, t) → ∃ s, r = textResult s) ∧
    (V2.openObsidianNote w now a).2.length ≤ 1 := by
  refine ⟨fun r t h => ?_, ?_⟩
  · unfold V2.openObsidianNote at h
    split at h
    · obtain ⟨o, -, hr, -⟩ := runCmd_ok _ _ _ _ _ h
      exact ⟨_, hr⟩
    · obtain ⟨o, -, hr, -⟩ := runCmd_ok _ _ _ _ _ h
      exact ⟨_, hr⟩
  · unfold V2.openObsidianNote
    split <;> (rw [runCmd_trace]; simp)

theorem mcpAdd_shape (w : World) (a : Args) :
    (∀ r t, V2.claudeMcpAdd w a = (.ok r, t) → ∃ s, r = textResult s) ∧
    (V2.claudeMcpAdd w a).2.length ≤ 1 := by
  refine ⟨fun r t h => ?_, ?_⟩
  · unfold V2.claudeMcpAdd at h
    repeat' split at h
    all_goals (try dsimp only at h)
    all_goals solve
      | simp_all
      | (obtain ⟨o, -, hr, -⟩ := runCmd_ok _ _ _ _ _ h; exact ⟨_, hr⟩)
  · unfold V2.claudeMcpAdd
    repeat' split
    all_goals solve | simp | (rw [runCmd_trace]; simp)

theorem mcpList_shape (w : World) :
    (∀ r t, V2.claudeMcpList w = (.ok r, t) → ∃ s, r = textResult s) ∧
    (V2.claudeMcpList w).2.length ≤ 1 := by
  refine ⟨fun r t h => ?_, ?_⟩
  · obtain ⟨o, -, hr, -⟩ := runCmd_ok _ _ _ _ _ h
    exact ⟨_, hr⟩
  · unfold V2.claudeMcpList
    rw [runCmd_trace]
    simp

/-! ### The two versions share their six handlers verbatim. -/

theorem v1_splitWindow_eq : V1.splitWindow = V2.splitWindow := rfl

theorem v1_newWindow_eq : V1.newWindow = V2.newWindow := rfl

theorem v1_listSessions_eq : V1.listSessions = V2.listSessions := rfl

theorem v1_listWindows_eq : V1.listWindows = V2.listWindows := rfl

theorem v1_sendKeys_eq : V1.sendKeys = V2.sendKeys := rfl

theorem v1_openNvim_eq : V1.openNvim = V2.openNvim := rfl

/-! ### Dispatcher lemmas -/

theorem v2_dispatch_shape (w : World) (now : DateTime) (name : String) (a : Args) :
    (∀ r t, V2.dispatch w now name a = (.ok r, t) → ∃ s, r = textResult s) ∧
    (V2.dispatch w now name a).2.length ≤ 1 := by
  refine ⟨fun r t h => ?_, ?_⟩
  · unfold V2.dispatch at h
    split at h
    · exact (splitWindow_shape w a).1 r t h
    · exact (newWindow_shape w a).1 r t h
    · exact (listSessions_shape w).1 r t h
    · exact (listWindows_shape w).1 r t h
    · exact (sendKeys_shape w a).1 r t h
    · exact (openNvim_shape w a).1 r t h
    · exact (obsNote_shape w now a).1 r t h
    · exact (mcpAdd_shape w a).1 r t h
    · exact (mcpList_shape w).1 r t h
    · simp_all
  · unfold V2.dispatch
    split
    · exact (splitWindow_shape w a).2
    · exact (newWindow_shape w a).2
    · exact (listSessions_shape w).2
    · exact (listWindows_shape w).2
    · exact (sendKeys_shape w a).2
    · exact (openNvim_shape w a).2
    · exact (obsNote_shape w now a).2
    · exact (mcpAdd_shape w a).2
    · exact (mcpList_shape w).2
    · simp

theorem v1_dispatch_shape (w : World) (name : String) (a : Args) :
    (∀ r t, V1.dispatch w name a = (.ok r, t) → ∃ s, r = textResult s) ∧
    (V1.dispatch w name a).2.length ≤ 1 := by
  refine ⟨fun r t h => ?_, ?_⟩
  · unfold V1.dispatch at h
    split at h
    · exact (v1_splitWindow_eq ▸ splitWindow_shape w a).1 r t h
    · exact (v1_newWindow_eq ▸ newWindow_shape w a).1 r t h
    · exact (v1_listSessions_eq ▸ listSessions_shape w).1 r t h
    · exact (v1_listWindows_eq ▸ listWindows_shape w).1 r t h
    · exact (v1_sendKeys_eq ▸ sendKeys_shape w a).1 r t h
    · exact (v1_openNvim_eq ▸ openNvim_shape w a).1 r t h
    · simp_all
  · unfold V1.dispatch
    split
    · exact (v1_splitWindow_eq ▸ splitWindow_shape w a).2
    · exact (v1_newWindow_eq ▸ newWindow_shape w a).2
    · exact (v1_listSessions_eq ▸ listSessions_shape w).2
    · exact (v1_listWindows_eq ▸ listWindows_shape w).2
    · exact (v1_sendKeys_eq ▸ sendKeys_shape w a).2
    · exact (v1_openNvim_eq ▸ openNvim_shape w a).2
    · simp

theorem v2_handleCall_shape (w : World) (now : DateTime) (name : String) (a : Args) :
    (∃ s, (V2.handleCall w now name a).1 = textResult s) ∧
    (V2.handleCall w now name a).2.length ≤ 1 := by
  obtain ⟨hs, ht⟩ := v2_dispatch_shape w now name a
  unfold V2.handleCall
  rcases hd : V2.dispatch w now name a with ⟨e, t⟩
  rcases e with m | res
  · exact ⟨⟨_, rfl⟩, by rw [hd] at ht; exact ht⟩
  · obtain ⟨s, hs'⟩ := hs res t hd
    exact ⟨⟨s, by rw [hs']⟩, by rw [hd] at ht; exact ht⟩

theorem v1_handleCall_shape (w : World) (name : String) (a : Args) :
    (∃ s, (V1.handleCall w name a).1 = textResult s) ∧
    (V1.handleCall w name a).2.length ≤ 1 := by
  obtain ⟨hs, ht⟩ := v1_dispatch_shape w name a
  unfold V1.handleCall
  rcases hd : V1.dispatch w name a with ⟨e, t⟩
  rcases e with m | res
  · exact ⟨⟨_, rfl⟩, by rw [hd] at ht; exact ht⟩
  · obtain ⟨s, hs'⟩ := hs res t hd
    exact ⟨⟨s, by rw [hs']⟩, by rw [hd] at ht; exact ht⟩

theorem v2_dispatch_unknown (w : World) (now : DateTime) (name : String) (a : Args)
    (h : name ∉ V2.toolNames) :
    V2.dispatch w now name a = (.error ("Unknown tool: " ++ name), []) := by
  unfold V2.dispatch
  split <;> simp_all [V2.toolNames]

theorem v1_dispatch_unknown (w : World) (name : String) (a : Args)
    (h : name ∉ V1.toolNames) :
    V1.dispatch w name a = (.error ("Unknown tool: " ++ name), []) := by
  unfold V1.dispatch
  split <;> simp_all [V1.toolNames]

/-! ### Claim C1 -/

/-- Claim C1: dispatching a call whose tool name is not among the declared
operations returns a normal result whose single text block is
`Error: Unknown tool: <name>` (so it begins with `Error:`), with no
subprocess executed; and for every tool name and argument mapping — in both
source versions — the handler returns a normal single-text-block reply, so
no exception crosses the dispatch boundary. -/
theorem claim_C1 :
    (∀ (w : World) (now : DateTime) (name : String) (a : Args), name ∉ V2.toolNames →
      V2.handleCall w now name a = (textResult ("Error: Unknown tool: " ++ name), []) ∧
      beginsWith "Error:" ("Error: Unknown tool: " ++ name)) ∧
    (∀ (w : World) (name : String) (a : Args), name ∉ V1.toolNames →
      V1.handleCall w name a = (textResult ("Error: Unknown tool: " ++ name), []) ∧
      beginsWith "Error:" ("Error: Unknown tool: " ++ name)) ∧
    (∀ (w : World) (now : DateTime) (name : String) (a : Args),
      ∃ s, (V2.handleCall w now name a).1 = textResult s) ∧
    (∀ (w : World) (name : String) (a : Args),
      ∃ s, (V1.handleCall w name a).1 = textResult s) := by
  refine ⟨fun w now name a h => ⟨?_, ?_⟩, fun w name a h => ⟨?_, ?_⟩,
    fun w now name a => (v2_handleCall_shape w now name a).1,
    fun w name a => (v1_handleCall_shape w name a).1⟩
  · unfold V2.handleCall
    rw [v2_dispatch_unknown w now name a h]
    rfl
  · exact ⟨" Unknown tool: " ++ name, rfl⟩
  · unfold V1.handleCall
    rw [v1_dispatch_unknown w name a h]
    rfl
  · exact ⟨" Unknown tool: " ++ name, rfl⟩

/-- Witness for C1 at the concrete unknown tool name `bogus_tool`. -/
theorem claim_C1_witness :
    "bogus_tool" ∉ V2.toolNames ∧ "bogus_tool" ∉ V1.toolNames ∧
    V2.handleCall w0 t0 "bogus_tool" {} =
      (textResult ("Error: Unknown tool: " ++ "bogus_tool"), []) ∧
    V1.handleCall w0 "bogus_tool" {} =
      (textResult ("Error: Unknown tool: " ++ "bogus_tool"), []) :=
  ⟨by decide, by decide,
    (claim_C1.1 w0 t0 "bogus_tool" {} (by decide)).1,
    (claim_C1.2.1 w0 "bogus_tool" {} (by decide)).1⟩

/-! ### Claim C2 -/

/-- Claim C2 counterexample: the claim says every dispatched call — error
paths such as unknown tool names included — performs exactly one subprocess
execution.  Dispatching the unknown tool name `definitely_not_a_tool`
performs zero: its trace is empty. -/
theorem claim_C2_counterexample :
    (V2.handleCall w0 t0 "definitely_not_a_tool" {}).2 = [] ∧
    ((V2.handleCall w0 t0 "definitely_not_a_tool" {}).2.length = 1 → False) := by
  constructor
  · rfl
  · intro h
    have h0 : (V2.handleCall w0 t0 "definitely_not_a_tool" {}).2 = [] := rfl
    rw [h0] at h
    simp at h

theorem v2_handleCall_trace (w : World) (now : DateTime) (name : String) (a : Args) :
    (V2.handleCall w now name a).2 = (V2.dispatch w now name a).2 := by
  unfold V2.handleCall
  rcases hd : V2.dispatch w now name a with ⟨m | r, t⟩ <;> rfl

theorem mcpAdd_no_url (w : World) (a : Args)
    (ht : a.transport = some "sse" ∨ a.transport = some "http") (hu : a.url = none) :
    V2.claudeMcpAdd w a = (.error "URL is required for sse/http transport", []) := by
  unfold V2.claudeMcpAdd
  have hc : (a.transport == some "sse" || a.transport == some "http") = true := by
    rcases ht with h | h <;> simp [h]
  simp [hc, hu, strTruthy]

theorem mcpAdd_no_command (w : World) (a : Args)
    (ht : a.transport = none) (hc : a.command = none) :
    V2.claudeMcpAdd w a = (.error "Command is required for stdio transport", []) := by
  unfold V2.claudeMcpAdd
  simp [ht, hc, strTruthy]

theorem mcpAdd_empty_trace (w : World) (a : Args) :
    ∀ e t, V2.claudeMcpAdd w a = (e, t) → t = [] →
      (e = .error "URL is required for sse/http transport" ∨
       e = .error "Command is required for stdio transport") := by
  intro e t hfull h
  unfold V2.claudeMcpAdd at hfull
  repeat' split at hfull
  all_goals (try dsimp only at hfull)
  all_goals first
    | (simp only [Prod.mk.injEq] at hfull; exact Or.inl hfull.1.symm)
    | (simp only [Prod.mk.injEq] at hfull; exact Or.inr hfull.1.symm)
    | (have htr := congrArg Prod.snd hfull
       dsimp only at htr
       rw [runCmd_trace] at htr
       rw [h] at htr
       simp at htr)

theorem v2_dispatch_trace (w : World) (now : DateTime) (name : String) (a : Args)
    (hmem : name ∈ V2.toolNames) :
    (∃ c, (V2.dispatch w now name a).2 = [c]) ∨
    (name = "claude_mcp_add" ∧
      (V2.dispatch w now name a = (.error "URL is required for sse/http transport", []) ∨
       V2.dispatch w now name a = (.error "Command is required for stdio transport", []))) := by
  have h' : name = "tmux_split_window" ∨ name = "tmux_new_window" ∨
      name = "tmux_list_sessions" ∨ name = "tmux_list_windows" ∨
      name = "tmux_send_keys" ∨ name = "tmux_open_nvim" ∨
      name = "tmux_open_obsidian_note" ∨ name = "claude_mcp_add" ∨
      name = "claude_mcp_list" := by
    simpa [V2.toolNames] using hmem
  rcases h' with rfl | rfl | rfl | rfl | rfl | rfl | rfl | rfl | rfl
  · refine Or.inl ?_
    have e : V2.dispatch w now "tmux_split_window" a = V2.splitWindow w a := rfl
    rw [e]
    unfold V2.splitWindow
    dsimp only
    exact ⟨_, runCmd_trace _ _ _⟩
  · refine Or.inl ?_
    have e : V2.dispatch w now "tmux_new_window" a = V2.newWindow w a := rfl
    rw [e]
    unfold V2.newWindow
    dsimp only
    exact ⟨_, runCmd_trace _ _ _⟩
  · refine Or.inl ?_
    have e : V2.dispatch w now "tmux_list_sessions" a = V2.listSessions w := rfl
    rw [e]
    unfold V2.listSessions
    exact ⟨_, runCmd_trace _ _ _⟩
  · refine Or.inl ?_
    have e : V2.dispatch w now "tmux_list_windows" a = V2.listWindows w := rfl
    rw [e]
    unfold V2.listWindows
    exact ⟨_, runCmd_trace _ _ _⟩
  · refine Or.inl ?_
    have e : V2.dispatch w now "tmux_send_keys" a = V2.sendKeys w a := rfl
    rw [e]
    unfold V2.sendKeys
    dsimp only
    exact ⟨_, runCmd_trace _ _ _⟩
  · refine Or.inl ?_
    have e : V2.dispatch w now "tmux_open_nvim" a = V2.openNvim w a := rfl
    rw [e]
    unfold V2.openNvim
    dsimp only
    exact ⟨_, runCmd_trace _ _ _⟩
  · refine Or.inl ?_
    have e : V2.dispatch w now "tmux_open_obsidian_note" a = V2.openObsidianNote w now a := rfl
    rw [e]
    unfold V2.openObsidianNote
    dsimp only
    split <;> exact ⟨_, runCmd_trace _ _ _⟩
  · have e : V2.dispatch w now "claude_mcp_add" a = V2.claudeMcpAdd w a := rfl
    rcases hres : V2.claudeMcpAdd w a with ⟨ex, t⟩
    have hlen : t.length ≤ 1 := by
      have h1 := (mcpAdd_shape w a).2
      rw [hres] at h1
      exact h1
    rcases t with _ | ⟨c, _ | ⟨c2, t2⟩⟩
    · rcases mcpAdd_empty_trace w a ex [] hres rfl with he | he
      · refine Or.inr ⟨rfl, Or.inl ?_⟩
        rw [e, hres, he]
      · refine Or.inr ⟨rfl, Or.inr ?_⟩
        rw [e, hres, he]
    · exact Or.inl ⟨c, by rw [e, hres]⟩
    · simp at hlen
  · refine Or.inl ?_
    have e : V2.dispatch w now "claude_mcp_list" a = V2.claudeMcpList w := rfl
    rw [e]
    unfold V2.claudeMcpList
    exact ⟨_, runCmd_trace _ _ _⟩

/-- Claim C2 (amended): every dispatched call performs at most one
subprocess execution; a call whose tool name is unknown performs zero, and
so does a register-remote-tool call whose required field (url for sse/http,
command for the default transport) is missing; conversely, a call with a
known tool name either performs exactly one execution or is one of those
two missing-required-field errors, which perform zero — so every call that
reaches the executor performs exactly one. -/
theorem claim_C2 :
    ∀ (w : World) (now : DateTime) (name : String) (a : Args),
      (V2.handleCall w now name a).2.length ≤ 1 ∧
      (name ∉ V2.toolNames → (V2.handleCall w now name a).2 = []) ∧
      ((a.transport = some "sse" ∨ a.transport = some "http") → a.url = none →
        (V2.handleCall w now "claude_mcp_add" a).2 = []) ∧
      (a.transport = none → a.command = none →
        (V2.handleCall w now "claude_mcp_add" a).2 = []) ∧
      (name ∈ V2.toolNames →
        (V2.handleCall w now name a).2.length = 1 ∨
        (name = "claude_mcp_add" ∧
          (V2.handleCall w now name a =
              (textResult "Error: URL is required for sse/http transport", []) ∨
           V2.handleCall w now name a =
              (textResult "Error: Command is required for stdio transport", [])))) := by
  intro w now name a
  have ed : V2.dispatch w now "claude_mcp_add" a = V2.claudeMcpAdd w a := rfl
  refine ⟨(v2_handleCall_shape w now name a).2, fun h => ?_, fun ht hu => ?_,
    fun ht hc => ?_, fun hmem => ?_⟩
  · unfold V2.handleCall
    rw [v2_dispatch_unknown w now name a h]
  · rw [v2_handleCall_trace, ed, mcpAdd_no_url w a ht hu]
  · rw [v2_handleCall_trace, ed, mcpAdd_no_command w a ht hc]
  · rcases v2_dispatch_trace w now name a hmem with ⟨c, hc'⟩ | ⟨hname, herr⟩
    · refine Or.inl ?_
      rw [v2_handleCall_trace, hc']
      rfl
    · refine Or.inr ⟨hname, ?_⟩
      rcases herr with h | h
      · refine Or.inl ?_
        unfold V2.handleCall
        rw [h]
        rfl
      · refine Or.inr ?_
        unfold V2.handleCall
        rw [h]
        rfl

/-- Witness for the amended C2: a successful call with exactly one
execution, an unknown name with zero, and the two missing-required-field
calls with zero. -/
theorem claim_C2_witness :
    (V2.handleCall w0 t0 "tmux_list_sessions" {}).2.length ≤ 1 ∧
    "definitely_not_a_tool" ∉ V2.toolNames ∧
    (V2.handleCall w0 t0 "definitely_not_a_tool" {}).2 = [] ∧
    (V2.handleCall w0 t0 "claude_mcp_add"
      { name := some "srv", transport := some "sse" }).2 = [] ∧
    (V2.handleCall w0 t0 "claude_mcp_add" { name := some "srv" }).2 = [] ∧
    "tmux_list_sessions" ∈ V2.toolNames ∧
    ((V2.handleCall w0 t0 "tmux_list_sessions" {}).2.length = 1 ∨
      ("tmux_list_sessions" = "claude_mcp_add" ∧
        (V2.handleCall w0 t0 "tmux_list_sessions" {} =
            (textResult "Error: URL is required for sse/http transport", []) ∨
         V2.handleCall w0 t0 "tmux_list_sessions" {} =
            (textResult "Error: Command is required for stdio transport", [])))) :=
  ⟨(claim_C2 w0 t0 "tmux_list_sessions" {}).1, by decide,
    (claim_C2 w0 t0 "definitely_not_a_tool" {}).2.1 (by decide),
    (claim_C2 w0 t0 "claude_mcp_add"
      { name := some "srv", transport := some "sse" }).2.2.1 (Or.inl rfl) rfl,
    (claim_C2 w0 t0 "claude_mcp_add" { name := some "srv" }).2.2.2.1 rfl rfl,
    by decide,
    (claim_C2 w0 t0 "tmux_list_sessions" {}).2.2.2.2 (by decide)⟩

/-! ### Claim C3 -/

theorem beginsWith_append_right (p s u : String) (h : beginsWith p s) :
    beginsWith p (s ++ u) := by
  obtain ⟨t, ht⟩ := h
  exact ⟨t ++ u, by rw [ht, String.append_assoc]⟩

/-- Claim C3 counterexample: a split-pane input whose direction is
`"diagonal"` — outside the declared enum — is not rejected before the
builder: the builder runs, executes the vertical-flag command, and replies
with a success text. -/
theorem claim_C3_counterexample :
    (V2.splitWindow w0 { direction := some "diagonal" }).2 = ["tmux split-window -v"] ∧
    (V2.splitWindow w0 { direction := some "diagonal" }).1 =
      .ok (textResult "Split window diagonally") := ⟨rfl, rfl⟩

/-- Claim C3 (amended): direction `"horizontal"` builds a command carrying
the horizontal flag and every other direction value — the declared
`"vertical"` but also any input outside the enum — builds one carrying the
vertical flag; no input-shape validation runs before the builder (the enum
exists only in the declared schema), so a command is built and executed for
every input. -/
theorem claim_C3 :
    ∀ (w : World) (a : Args), ∃ c, (V2.splitWindow w a).2 = [c] ∧
      (a.direction = some "horizontal" → beginsWith "tmux split-window -h" c) ∧
      (a.direction ≠ some "horizontal" → beginsWith "tmux split-window -v" c) := by
  intro w a
  unfold V2.splitWindow
  dsimp only
  rw [runCmd_trace]
  refine ⟨_, rfl, fun hd => ?_, fun hd => ?_⟩
  · have hb : beginsWith "tmux split-window -h" ("tmux split-window " ++ "-h") :=
      ⟨"", by decide⟩
    simp only [hd, beq_self_eq_true, if_true]
    split <;> split <;>
      (repeat first | exact hb | apply beginsWith_append_right)
  · have hb : beginsWith "tmux split-window -v" ("tmux split-window " ++ "-v") :=
      ⟨"", by decide⟩
    have hc : (a.direction == some "horizontal") = false := beq_eq_false_iff_ne.mpr hd
    simp only [hc, if_false]
    split <;> split <;>
      (repeat first | exact hb | apply beginsWith_append_right)

/-- Witness for the amended C3 at the out-of-enum direction `"diagonal"`. -/
theorem claim_C3_witness :
    (some "diagonal" ≠ some "horizontal") ∧
    (∃ c, (V2.splitWindow w0 { direction := some "diagonal" }).2 = [c] ∧
      beginsWith "tmux split-window -v" c) := by
  refine ⟨by decide, ?_⟩
  obtain ⟨c, hc, -, hv⟩ := claim_C3 w0 { direction := some "diagonal" }
  exact ⟨c, hc, hv (by decide)⟩

/-! ### Claim C4 -/

theorem not_ends_enter_quote (y : String) : ¬ endsWith " Enter" (y ++ "\"") := by
  rintro ⟨t, ht⟩
  have hd := congrArg String.data ht
  rw [data_append, data_append] at hd
  have e1 : ("\"" : String).data = ['"'] := rfl
  have e2 : (" Enter" : String).data = [' ', 'E', 'n', 't', 'e', 'r'] := rfl
  rw [e1, e2] at hd
  have h2 : y.data ++ ['"'] = (t.data ++ [' ', 'E', 'n', 't', 'e']) ++ ['r'] := by
    rw [List.append_assoc]
    exact hd
  have h3 := congrArg List.getLast? h2
  rw [List.getLast?_concat, List.getLast?_concat] at h3
  exact absurd h3 (by decide)

/-- Claim C4: a send-keys call appends the `Enter` keystroke token to the
built command exactly when `enter` is not explicitly `false` — omitted
(`undefined`) or `true` both append it, explicit `false` does not. -/
theorem claim_C4 :
    ∀ (w : World) (a : Args),
      (a.enter ≠ some false →
        ∃ c, (V2.sendKeys w a).2 = [c] ∧ endsWith " Enter" c) ∧
      (a.enter = some false →
        ∃ c, (V2.sendKeys w a).2 = [c] ∧ ¬ endsWith " Enter" c) := by
  intro w a
  unfold V2.sendKeys
  dsimp only
  rw [runCmd_trace]
  refine ⟨fun h => ?_, fun h => ?_⟩
  · rw [if_pos h]
    exact ⟨_, rfl, _, rfl⟩
  · rw [if_neg (fun hn => hn h)]
    exact ⟨_, rfl, not_ends_enter_quote _⟩

/-- Witness for C4: `enter` omitted appends Enter, `enter: false` does not. -/
theorem claim_C4_witness :
    ((none : Option Bool) ≠ some false) ∧
    (∃ c, (V2.sendKeys w0 { keys := some "ls" }).2 = [c] ∧ endsWith " Enter" c) ∧
    (∃ c, (V2.sendKeys w0 { keys := some "ls", enter := some false }).2 = [c] ∧
      ¬ endsWith " Enter" c) :=
  ⟨by decide,
    (claim_C4 w0 { keys := some "ls" }).1 (by decide),
    (claim_C4 w0 { keys := some "ls", enter := some false }).2 rfl⟩

/-! ### Claim C5 -/

theorem runCmd_of_err (w : World) (c : String) (f : ExecResult → String) (m : String)
    (h : w c = .err m) : runCmd w c f = (.error m, [c]) := by
  unfold runCmd; rw [h]

/-- Claim C5: a register-remote-tool call with transport `sse` or `http`
and no `url` field fails with the descriptive error reply
`Error: URL is required for sse/http transport` and executes zero
subprocesses; with the default (absent) transport and no `command` field it
fails with `Error: Command is required for stdio transport`, also with
zero subprocess executions. -/
theorem claim_C5 :
    ∀ (w : World) (now : DateTime) (a : Args),
      ((a.transport = some "sse" ∨ a.transport = some "http") → a.url = none →
        V2.handleCall w now "claude_mcp_add" a =
          (textResult "Error: URL is required for sse/http transport", [])) ∧
      (a.transport = none → a.command = none →
        V2.handleCall w now "claude_mcp_add" a =
          (textResult "Error: Command is required for stdio transport", [])) := by
  intro w now a
  have hd : V2.dispatch w now "claude_mcp_add" a = V2.claudeMcpAdd w a := rfl
  constructor
  · intro ht hu
    have h1 : V2.claudeMcpAdd w a =
        (.error "URL is required for sse/http transport", []) := by
      unfold V2.claudeMcpAdd
      have hc : (a.transport == some "sse" || a.transport == some "http") = true := by
        rcases ht with h | h <;> simp [h]
      simp [hc, hu, strTruthy]
    unfold V2.handleCall
    rw [hd, h1]
    rfl
  · intro ht hc
    have h1 : V2.claudeMcpAdd w a =
        (.error "Command is required for stdio transport", []) := by
      unfold V2.claudeMcpAdd
      simp [ht, hc, strTruthy]
    unfold V2.handleCall
    rw [hd, h1]
    rfl

/-- Witness for C5: missing url with sse transport, and missing command
with the default transport, both at concrete inputs. -/
theorem claim_C5_witness :
    V2.handleCall w0 t0 "claude_mcp_add" { name := some "srv", transport := some "sse" } =
      (textResult "Error: URL is required for sse/http transport", []) ∧
    V2.handleCall w0 t0 "claude_mcp_add" { name := some "srv" } =
      (textResult "Error: Command is required for stdio transport", []) :=
  ⟨(claim_C5 w0 t0 { name := some "srv", transport := some "sse" }).1 (Or.inl rfl) rfl,
    (claim_C5 w0 t0 { name := some "srv" }).2 rfl rfl⟩

/-! ### Claim C6 -/

/-- Claim C6: an open-note-in-vault call with no vault executes exactly the
one read-only `ls` listing of the vault directory, replies with the listing
prefixed `Available vaults:`, and the one command it runs mentions neither
the editor (`nvim`) nor a pane split (`split-window`). -/
theorem claim_C6 :
    ∀ (w : World) (now : DateTime) (a : Args), a.vault = none →
      (V2.handleCall w now "tmux_open_obsidian_note" a).2 =
        ["ls \"" ++ V2.obsidianBase ++ "\""] ∧
      (∀ o, w ("ls \"" ++ V2.obsidianBase ++ "\"") = .ok o →
        V2.handleCall w now "tmux_open_obsidian_note" a =
          (textResult ("Available vaults:\n" ++ o.stdout),
            ["ls \"" ++ V2.obsidianBase ++ "\""])) ∧
      strOccurs "nvim" ("ls \"" ++ V2.obsidianBase ++ "\"") = false ∧
      strOccurs "split-window" ("ls \"" ++ V2.obsidianBase ++ "\"") = false := by
  intro w now a hv
  have hd : V2.dispatch w now "tmux_open_obsidian_note" a = V2.openObsidianNote w now a := rfl
  have hobs : V2.openObsidianNote w now a =
      runCmd w ("ls \"" ++ V2.obsidianBase ++ "\"") fun o => "Available vaults:\n" ++ o.stdout := by
    unfold V2.openObsidianNote
    simp [hv, strTruthy]
  refine ⟨?_, fun o ho => ?_, by decide, by decide⟩
  · unfold V2.handleCall
    rw [hd, hobs]
    cases hwc : w ("ls \"" ++ V2.obsidianBase ++ "\"") with
    | ok o => rw [runCmd_of_ok _ _ _ _ hwc]
    | err m => rw [runCmd_of_err _ _ _ _ hwc]
  · unfold V2.handleCall
    rw [hd, hobs, runCmd_of_ok _ _ _ _ ho]

/-- Witness for C6 at the empty argument object. -/
theorem claim_C6_witness :
    (V2.handleCall w0 t0 "tmux_open_obsidian_note" {}).2 =
      ["ls \"" ++ V2.obsidianBase ++ "\""] ∧
    V2.handleCall w0 t0 "tmux_open_obsidian_note" {} =
      (textResult ("Available vaults:\n" ++ (⟨"", ""⟩ : ExecResult).stdout),
        ["ls \"" ++ V2.obsidianBase ++ "\""]) :=
  ⟨(claim_C6 w0 t0 {} rfl).1, (claim_C6 w0 t0 {} rfl).2.1 ⟨"", ""⟩ rfl⟩

/-! ### Claim C7 -/

/-- Claim C7: a list-sessions call executes exactly the fixed listing
command (formatting template included) and replies with the literal prefix
`Tmux sessions:` plus a newline followed by the captured stdout unmodified. -/
theorem claim_C7 :
    ∀ (w : World) (now : DateTime) (a : Args) (o : ExecResult),
      w V2.listSessionsCmd = .ok o →
      V2.handleCall w now "tmux_list_sessions" a =
        (textResult ("Tmux sessions:\n" ++ o.stdout), [V2.listSessionsCmd]) := by
  intro w now a o h
  have hd : V2.dispatch w now "tmux_list_sessions" a = V2.listSessions w := rfl
  unfold V2.handleCall
  rw [hd]
  unfold V2.listSessions
  rw [runCmd_of_ok _ _ _ _ h]

/-- Witness for C7 with a world answering the fixed listing command. -/
theorem claim_C7_witness :
    w0 V2.listSessionsCmd = .ok ⟨"", ""⟩ ∧
    V2.handleCall w0 t0 "tmux_list_sessions" {} =
      (textResult ("Tmux sessions:\n" ++ (⟨"", ""⟩ : ExecResult).stdout),
        [V2.listSessionsCmd]) :=
  ⟨rfl, claim_C7 w0 t0 {} ⟨"", ""⟩ rfl⟩

/-! ### Claim C9 -/

/-- Claim C9: on each of the six tools both source versions declare, the two
dispatchers agree exactly — same executed command string and same reply —
for every world and every argument mapping; the nine-tool version only adds
tools. -/
theorem claim_C9 :
    ∀ (w : World) (now : DateTime) (name : String) (a : Args),
      name ∈ V1.toolNames → V1.handleCall w name a = V2.handleCall w now name a := by
  intro w now name a h
  have h' : name = "tmux_split_window" ∨ name = "tmux_new_window" ∨
      name = "tmux_list_sessions" ∨ name = "tmux_list_windows" ∨
      name = "tmux_send_keys" ∨ name = "tmux_open_nvim" := by
    simpa [V1.toolNames] using h
  rcases h' with rfl | rfl | rfl | rfl | rfl | rfl <;> rfl

/-- Witness for C9 at a concrete shared tool call. -/
theorem claim_C9_witness :
    "tmux_send_keys" ∈ V1.toolNames ∧
    V1.handleCall wB "tmux_send_keys" { keys := some "echo hi" } =
      V2.handleCall wB t0 "tmux_send_keys" { keys := some "echo hi" } :=
  ⟨by decide, claim_C9 wB t0 "tmux_send_keys" { keys := some "echo hi" } (by decide)⟩

/-! ### Claim C10 -/

/-- Claim C10: for the mutating operations (split-pane, new-window,
send-keys, open-editor) the success reply is a function of the call's
arguments alone: two runs of the same call against worlds producing
different stdout/stderr yield identical replies — the captured subprocess
output is discarded, not echoed. -/
theorem claim_C10 :
    (∀ (w₁ w₂ : World) (a : Args) (r₁ r₂ : CallResult) (t₁ t₂ : List String),
      V2.splitWindow w₁ a = (.ok r₁, t₁) → V2.splitWindow w₂ a = (.ok r₂, t₂) → r₁ = r₂) ∧
    (∀ (w₁ w₂ : World) (a : Args) (r₁ r₂ : CallResult) (t₁ t₂ : List String),
      V2.newWindow w₁ a = (.ok r₁, t₁) → V2.newWindow w₂ a = (.ok r₂, t₂) → r₁ = r₂) ∧
    (∀ (w₁ w₂ : World) (a : Args) (r₁ r₂ : CallResult) (t₁ t₂ : List String),
      V2.sendKeys w₁ a = (.ok r₁, t₁) → V2.sendKeys w₂ a = (.ok r₂, t₂) → r₁ = r₂) ∧
    (∀ (w₁ w₂ : World) (a : Args) (r₁ r₂ : CallResult) (t₁ t₂ : List String),
      V2.openNvim w₁ a = (.ok r₁, t₁) → V2.openNvim w₂ a = (.ok r₂, t₂) → r₁ = r₂) := by
  refine ⟨fun w₁ w₂ a r₁ r₂ t₁ t₂ h₁ h₂ => ?_, fun w₁ w₂ a r₁ r₂ t₁ t₂ h₁ h₂ => ?_,
    fun w₁ w₂ a r₁ r₂ t₁ t₂ h₁ h₂ => ?_, fun w₁ w₂ a r₁ r₂ t₁ t₂ h₁ h₂ => ?_⟩ <;>
  · obtain ⟨o₁, -, hr₁, -⟩ := runCmd_ok _ _ _ _ _ h₁
    obtain ⟨o₂, -, hr₂, -⟩ := runCmd_ok _ _ _ _ _ h₂
    rw [hr₁, hr₂]

/-- Witness for C10: one split-pane call against two worlds with different
captured output produces the same reply. -/
theorem claim_C10_witness :
    V2.splitWindow w0 { direction := some "horizontal" } =
      (.ok (textResult "Split window horizontally"), ["tmux split-window -h"]) ∧
    V2.splitWindow wB { direction := some "horizontal" } =
      (.ok (textResult "Split window horizontally"), ["tmux split-window -h"]) ∧
    (textResult "Split window horizontally" : CallResult) =
      textResult "Split window horizontally" :=
  ⟨rfl, rfl,
    claim_C10.1 w0 wB { direction := some "horizontal" } _ _ _ _ rfl rfl⟩

/-! ### Decimal rendering facts -/

theorem digitChar_isDigit : ∀ m, m < 10 → (Nat.digitChar m).isDigit = true := by decide

theorem toDigitsCore_digits (fuel : Nat) :
    ∀ (n : Nat) (ds : List Char), ds.all Char.isDigit = true →
      (Nat.toDigitsCore 10 fuel n ds).all Char.isDigit = true := by
  induction fuel with
  | zero => intro n ds h; simpa [Nat.toDigitsCore] using h
  | succ f ih =>
    intro n ds h
    simp only [Nat.toDigitsCore]
    have hdig : (Nat.digitChar (n % 10)).isDigit = true :=
      digitChar_isDigit _ (Nat.mod_lt _ (by norm_num))
    split
    · simp [List.all_cons, h, hdig]
    · exact ih _ _ (by simp [List.all_cons, h, hdig])

theorem toDigitsCore_length (fuel : Nat) :
    ∀ (k n : Nat) (ds : List Char), 1 ≤ k → n < 10 ^ k →
      (Nat.toDigitsCore 10 fuel n ds).length ≤ k + ds.length := by
  induction fuel with
  | zero => intro k n ds hk hn; simp [Nat.toDigitsCore]
  | succ f ih =>
    intro k n ds hk hn
    simp only [Nat.toDigitsCore]
    split
    · simp only [List.length_cons]
      omega
    · rename_i hnz
      have h10 : 10 ≤ n := by
        by_contra hlt
        push_neg at hlt
        exact hnz (Nat.div_eq_of_lt hlt)
      have hk2 : 2 ≤ k := by
        rcases Nat.lt_or_ge k 2 with hk1 | hk1
        · exfalso
          have hk1' : k = 1 := by omega
          rw [hk1'] at hn
          simp at hn
          omega
        · exact hk1
      have hn' : n / 10 < 10 ^ (k - 1) := by
        have hpow : 10 ^ (k - 1) * 10 = 10 ^ k := by
          rw [← pow_succ]
          congr 1
          omega
        exact (Nat.div_lt_iff_lt_mul (by norm_num)).mpr (by omega)
      have := ih (k - 1) (n / 10) (Nat.digitChar (n % 10) :: ds) (by omega) hn'
      simp only [List.length_cons] at this
      omega

theorem toDigitsCore_le_length (fuel : Nat) :
    ∀ (n : Nat) (ds : List Char), ds.length ≤ (Nat.toDigitsCore 10 fuel n ds).length := by
  induction fuel with
  | zero => intro n ds; simp [Nat.toDigitsCore]
  | succ f ih =>
    intro n ds
    simp only [Nat.toDigitsCore]
    split
    · simp
    · have := ih (n / 10) (Nat.digitChar (n % 10) :: ds)
      simp only [List.length_cons] at this
      omega

theorem toDigitsCore_pos (f n : Nat) (ds : List Char) :
    1 + ds.length ≤ (Nat.toDigitsCore 10 (f + 1) n ds).length := by
  simp only [Nat.toDigitsCore]
  split
  · simp only [List.length_cons]
    omega
  · have := toDigitsCore_le_length f (n / 10) (Nat.digitChar (n % 10) :: ds)
    simp only [List.length_cons] at this
    omega

theorem repr_data (n : Nat) : (Nat.repr n).data = Nat.toDigits 10 n := rfl

theorem repr_digits (n : Nat) : (Nat.repr n).data.all Char.isDigit = true := by
  rw [repr_data]
  exact toDigitsCore_digits (n + 1) n [] rfl

theorem repr_length_le (k n : Nat) (hk : 1 ≤ k) (hn : n < 10 ^ k) :
    (Nat.repr n).length ≤ k := by
  have h := toDigitsCore_length (n + 1) k n [] hk hn
  have e : (Nat.repr n).length = (Nat.toDigits 10 n).length := rfl
  rw [e]
  simpa [Nat.toDigits] using h

theorem repr_length_pos (n : Nat) : 1 ≤ (Nat.repr n).length := by
  have h := toDigitsCore_pos n n []
  have e : (Nat.repr n).length = (Nat.toDigits 10 n).length := rfl
  rw [e]
  simpa [Nat.toDigits] using h

theorem padNum_data (k n : Nat) :
    (padNum k n).data =
      List.replicate (k - (Nat.repr n).length) '0' ++ (Nat.repr n).data := rfl

theorem padNum_length (k n : Nat) (hk : 1 ≤ k) (hn : n < 10 ^ k) :
    (padNum k n).data.length = k := by
  rw [padNum_data]
  have h1 := repr_length_le k n hk hn
  have h2 := repr_length_pos n
  have e : (Nat.repr n).data.length = (Nat.repr n).length := rfl
  simp only [List.length_append, List.length_replicate, e]
  omega

theorem padNum_digits (k n : Nat) : (padNum k n).data.all Char.isDigit = true := by
  rw [padNum_data]
  have hrep : (List.replicate (k - (Nat.repr n).length) '0').all Char.isDigit = true := by
    rw [List.all_eq_true]
    intro x hx
    rw [List.eq_of_mem_replicate hx]
    decide
  rw [List.all_append, hrep, repr_digits]
  rfl

/-! ### List surgery for the timestamp proof -/

theorem take_append_len {α : Type} (l₁ l₂ : List α) : (l₁ ++ l₂).take l₁.length = l₁ := by
  induction l₁ with
  | nil => simp
  | cons a t ih => simp [ih]

theorem replFirst_append (t r : Char) (A B : List Char) (h : t ∉ A) :
    replFirst t r (A ++ t :: B) = A ++ r :: B := by
  induction A with
  | nil => simp [replFirst]
  | cons c cs ih =>
    rw [List.mem_cons, not_or] at h
    rw [List.cons_append, replFirst, if_neg (fun e => h.1 e.symm), ih h.2, List.cons_append]

theorem not_mem_of_all_digits (c : Char) (hc : c.isDigit = false) (l : List Char)
    (hl : l.all Char.isDigit = true) : c ∉ l := by
  intro hmem
  have h := List.all_eq_true.mp hl c hmem
  rw [hc] at h
  cases h

theorem map_ifchar_digits (t r : Char) (ht : t.isDigit = false) (l : List Char)
    (hl : l.all Char.isDigit = true) :
    l.map (fun c => if c = t then r else c) = l := by
  induction l with
  | nil => rfl
  | cons c cs ih =>
    rw [List.all_cons, Bool.and_eq_true] at hl
    have hc : ¬(c = t) := by
      intro e
      rw [e] at hl
      rw [hl.1] at ht
      cases ht
    rw [List.map_cons, if_neg hc, ih hl.2]

/-- The spec-side timestamp pattern `YYYY-MM-DD_HH-MM-SS`: four digits, then
a dash, two digits, dash, two digits, underscore, two digits, dash, two
digits, dash, two digits. -/
def tsShape (l : List Char) : Prop :=
  ∃ Y Mo Dd Hh Mi Se : List Char,
    l = Y ++ '-' :: (Mo ++ '-' :: (Dd ++ '_' :: (Hh ++ '-' :: (Mi ++ '-' :: Se)))) ∧
    Y.length = 4 ∧ Mo.length = 2 ∧ Dd.length = 2 ∧ Hh.length = 2 ∧ Mi.length = 2 ∧
    Se.length = 2 ∧
    Y.all Char.isDigit = true ∧ Mo.all Char.isDigit = true ∧ Dd.all Char.isDigit = true ∧
    Hh.all Char.isDigit = true ∧ Mi.all Char.isDigit = true ∧ Se.all Char.isDigit = true

/-- Rendering the spec's words `YYYY-MM-DD_HH-MM-SS` over the clock fields. -/
def tsString (d : DateTime) : String :=
  padNum 4 d.year ++ "-" ++ padNum 2 d.month ++ "-" ++ padNum 2 d.day ++ "_" ++
    padNum 2 d.hour ++ "-" ++ padNum 2 d.minute ++ "-" ++ padNum 2 d.second

theorem slice_repl_generic (Y Mo Dd Hh Mi Se tail : List Char)
    (hYlen : Y.length = 4) (hMolen : Mo.length = 2) (hDlen : Dd.length = 2)
    (hHlen : Hh.length = 2) (hMilen : Mi.length = 2) (hSlen : Se.length = 2)
    (hYd : Y.all Char.isDigit = true) (hMod : Mo.all Char.isDigit = true)
    (hDd : Dd.all Char.isDigit = true) (hHd : Hh.all Char.isDigit = true)
    (hMid : Mi.all Char.isDigit = true) (hSd : Se.all Char.isDigit = true) :
    ((Y ++ '-' :: (Mo ++ '-' :: (Dd ++ 'T' :: (Hh ++ ':' :: (Mi ++ ':' :: Se))))) ++ tail).take 19
      = Y ++ '-' :: (Mo ++ '-' :: (Dd ++ 'T' :: (Hh ++ ':' :: (Mi ++ ':' :: Se)))) ∧
    replFirst 'T' '_' (Y ++ '-' :: (Mo ++ '-' :: (Dd ++ 'T' :: (Hh ++ ':' :: (Mi ++ ':' :: Se)))))
      = Y ++ '-' :: (Mo ++ '-' :: (Dd ++ '_' :: (Hh ++ ':' :: (Mi ++ ':' :: Se)))) ∧
    (Y ++ '-' :: (Mo ++ '-' :: (Dd ++ '_' :: (Hh ++ ':' :: (Mi ++ ':' :: Se))))).map
        (fun c => if c = ':' then '-' else c)
      = Y ++ '-' :: (Mo ++ '-' :: (Dd ++ '_' :: (Hh ++ '-' :: (Mi ++ '-' :: Se)))) := by
  refine ⟨?_, ?_, ?_⟩
  · have hPlen :
        (Y ++ '-' :: (Mo ++ '-' :: (Dd ++ 'T' :: (Hh ++ ':' :: (Mi ++ ':' :: Se))))).length
          = 19 := by
      simp [List.length_append, List.length_cons, hYlen, hMolen, hDlen, hHlen, hMilen, hSlen]
    rw [← hPlen, take_append_len]
  · have hTA : 'T' ∉ Y ++ '-' :: (Mo ++ '-' :: Dd) := by
      intro hm
      simp only [List.mem_append, List.mem_cons] at hm
      rcases hm with h | h | h | h | h
      · exact not_mem_of_all_digits 'T' (by decide) Y hYd h
      · exact absurd h (by decide)
      · exact not_mem_of_all_digits 'T' (by decide) Mo hMod h
      · exact absurd h (by decide)
      · exact not_mem_of_all_digits 'T' (by decide) Dd hDd h
    have hre : Y ++ '-' :: (Mo ++ '-' :: (Dd ++ 'T' :: (Hh ++ ':' :: (Mi ++ ':' :: Se))))
        = (Y ++ '-' :: (Mo ++ '-' :: Dd)) ++ 'T' :: (Hh ++ ':' :: (Mi ++ ':' :: Se)) := by
      simp [List.append_assoc, List.cons_append]
    have hre2 : Y ++ '-' :: (Mo ++ '-' :: (Dd ++ '_' :: (Hh ++ ':' :: (Mi ++ ':' :: Se))))
        = (Y ++ '-' :: (Mo ++ '-' :: Dd)) ++ '_' :: (Hh ++ ':' :: (Mi ++ ':' :: Se)) := by
      simp [List.append_assoc, List.cons_append]
    rw [hre, hre2, replFirst_append _ _ _ _ hTA]
  · have eY := map_ifchar_digits ':' '-' (by decide) Y hYd
    have eMo := map_ifchar_digits ':' '-' (by decide) Mo hMod
    have eDd := map_ifchar_digits ':' '-' (by decide) Dd hDd
    have eHh := map_ifchar_digits ':' '-' (by decide) Hh hHd
    have eMi := map_ifchar_digits ':' '-' (by decide) Mi hMid
    have eSe := map_ifchar_digits ':' '-' (by decide) Se hSd
    simp [List.map_append, List.map_cons, eY, eMo, eDd, eHh, eMi, eSe]

theorem jsSlice_data (s : String) (n : Nat) : (jsSlice s n).data = s.data.take n := rfl

theorem jsReplaceFirst_data (s : String) (t r : Char) :
    (jsReplaceFirst s t r).data = replFirst t r s.data := rfl

theorem jsReplaceAll_data (s : String) (t r : Char) :
    (jsReplaceAll s t r).data = s.data.map fun c => if c = t then r else c := rfl

theorem string_data_inj (s t : String) (h : s.data = t.data) : s = t := by
  cases s
  cases t
  cases h
  rfl

theorem defaultNoteName_valid (d : DateTime) (h : ValidTime d) :
    defaultNoteName d = tsString d ++ ".md" ∧ tsShape (tsString d).data := by
  obtain ⟨hy, hm1, hm2, hd1, hd2, hh, hmi, hsec⟩ := h
  have e4 : (10 : Nat) ^ 4 = 10000 := by norm_num
  have e2 : (10 : Nat) ^ 2 = 100 := by norm_num
  have hYlen : (padNum 4 d.year).data.length = 4 :=
    padNum_length 4 d.year (by norm_num) (by omega)
  have hMolen : (padNum 2 d.month).data.length = 2 :=
    padNum_length 2 d.month (by norm_num) (by omega)
  have hDlen : (padNum 2 d.day).data.length = 2 :=
    padNum_length 2 d.day (by norm_num) (by omega)
  have hHlen : (padNum 2 d.hour).data.length = 2 :=
    padNum_length 2 d.hour (by norm_num) (by omega)
  have hMilen : (padNum 2 d.minute).data.length = 2 :=
    padNum_length 2 d.minute (by norm_num) (by omega)
  have hSlen : (padNum 2 d.second).data.length = 2 :=
    padNum_length 2 d.second (by norm_num) (by omega)
  obtain ⟨htake, hrepl, hmap⟩ := slice_repl_generic
    (padNum 4 d.year).data (padNum 2 d.month).data (padNum 2 d.day).data
    (padNum 2 d.hour).data (padNum 2 d.minute).data (padNum 2 d.second).data
    ('.' :: ((padNum 3 d.ms).data ++ ['Z']))
    hYlen hMolen hDlen hHlen hMilen hSlen
    (padNum_digits 4 d.year) (padNum_digits 2 d.month) (padNum_digits 2 d.day)
    (padNum_digits 2 d.hour) (padNum_digits 2 d.minute) (padNum_digits 2 d.second)
  have ddash : ("-" : String).data = ['-'] := rfl
  have dT : ("T" : String).data = ['T'] := rfl
  have dcol : (":" : String).data = [':'] := rfl
  have ddot : ("." : String).data = ['.'] := rfl
  have dZ : ("Z" : String).data = ['Z'] := rfl
  have dund : ("_" : String).data = ['_'] := rfl
  have hiso : (toISOString d).data =
      ((padNum 4 d.year).data ++ '-' :: ((padNum 2 d.month).data ++ '-' ::
        ((padNum 2 d.day).data ++ 'T' :: ((padNum 2 d.hour).data ++ ':' ::
          ((padNum 2 d.minute).data ++ ':' :: (padNum 2 d.second).data))))) ++
        '.' :: ((padNum 3 d.ms).data ++ ['Z']) := by
    simp only [toISOString, data_append, ddash, dT, dcol, ddot, dZ,
      List.append_assoc, List.cons_append, List.singleton_append, List.nil_append]
  have hts : (tsString d).data =
      (padNum 4 d.year).data ++ '-' :: ((padNum 2 d.month).data ++ '-' ::
        ((padNum 2 d.day).data ++ '_' :: ((padNum 2 d.hour).data ++ '-' ::
          ((padNum 2 d.minute).data ++ '-' :: (padNum 2 d.second).data)))) := by
    simp only [tsString, data_append, ddash, dund,
      List.append_assoc, List.cons_append, List.singleton_append, List.nil_append]
  have hslice : (jsSlice (toISOString d) 19).data =
      (padNum 4 d.year).data ++ '-' :: ((padNum 2 d.month).data ++ '-' ::
        ((padNum 2 d.day).data ++ 'T' :: ((padNum 2 d.hour).data ++ ':' ::
          ((padNum 2 d.minute).data ++ ':' :: (padNum 2 d.second).data)))) := by
    rw [jsSlice_data, hiso, htake]
  have hfirst : (jsReplaceFirst (jsSlice (toISOString d) 19) 'T' '_').data =
      (padNum 4 d.year).data ++ '-' :: ((padNum 2 d.month).data ++ '-' ::
        ((padNum 2 d.day).data ++ '_' :: ((padNum 2 d.hour).data ++ ':' ::
          ((padNum 2 d.minute).data ++ ':' :: (padNum 2 d.second).data)))) := by
    rw [jsReplaceFirst_data, hslice, hrepl]
  have hall : (jsReplaceAll (jsReplaceFirst (jsSlice (toISOString d) 19) 'T' '_') ':' '-').data
      = (tsString d).data := by
    rw [jsReplaceAll_data, hfirst, hmap, hts]
  have hstr : jsReplaceAll (jsReplaceFirst (jsSlice (toISOString d) 19) 'T' '_') ':' '-'
      = tsString d := string_data_inj _ _ hall
  constructor
  · unfold defaultNoteName
    rw [hstr]
  · rw [hts]
    exact ⟨(padNum 4 d.year).data, (padNum 2 d.month).data, (padNum 2 d.day).data,
      (padNum 2 d.hour).data, (padNum 2 d.minute).data, (padNum 2 d.second).data,
      rfl, hYlen, hMolen, hDlen, hHlen, hMilen, hSlen,
      padNum_digits 4 d.year, padNum_digits 2 d.month, padNum_digits 2 d.day,
      padNum_digits 2 d.hour, padNum_digits 2 d.minute, padNum_digits 2 d.second⟩

/-- Claim C8: with a vault given and `note_name` absent, the note filename
is derived from the current clock instant and — for every clock reading the
real clock can produce — has the form `YYYY-MM-DD_HH-MM-SS` (with the `.md`
extension appended); the split command the handler executes opens the
editor on exactly that filename under the vault path. -/
theorem claim_C8 :
    ∀ (now : DateTime), ValidTime now →
      (∃ stem, defaultNoteName now = stem ++ ".md" ∧ tsShape stem.data) ∧
      (∀ (w : World) (a : Args) (v : String), a.vault = some v → v ≠ "" →
        a.note_name = none →
        (V2.openObsidianNote w now a).2 =
          ["tmux split-window " ++ (if a.split == some "vertical" then "-v" else "-h") ++
            " -c \"" ++ (V2.obsidianBase ++ "/" ++ v) ++ "\" \"nvim \x27" ++
            (V2.obsidianBase ++ "/" ++ v ++ "/" ++ defaultNoteName now) ++ "\x27\""]) := by
  intro now hval
  refine ⟨?_, ?_⟩
  · obtain ⟨he, hsh⟩ := defaultNoteName_valid now hval
    exact ⟨tsString now, he, hsh⟩
  · intro w a v hv hne hnn
    unfold V2.openObsidianNote
    have h1 : strTruthy (some v) = true := by simp [strTruthy, hne]
    have h0 : (!strTruthy (some v)) = false := by rw [h1]; rfl
    have h2 : strTruthy (none : Option String) = false := rfl
    simp only [hv, hnn, h0, h2, Bool.false_eq_true, if_false, getS, Option.getD_some]
    rw [runCmd_trace]

/-- Witness for C8 at the clock instant 2025-10-11 12:34:56.789. -/
theorem claim_C8_witness :
    ValidTime t0 ∧
    (∃ stem, defaultNoteName t0 = stem ++ ".md" ∧ tsShape stem.data) ∧
    (V2.openObsidianNote w0 t0 { vault := some "main" }).2 =
      ["tmux split-window " ++
        (if (({ vault := some "main" } : Args).split == some "vertical") then "-v" else "-h") ++
        " -c \"" ++ (V2.obsidianBase ++ "/" ++ "main") ++ "\" \"nvim \x27" ++
        (V2.obsidianBase ++ "/" ++ "main" ++ "/" ++ defaultNoteName t0) ++ "\x27\""] :=
  ⟨by unfold ValidTime; decide, (claim_C8 t0 (by unfold ValidTime; decide)).1,
    (claim_C8 t0 (by unfold ValidTime; decide)).2 w0 { vault := some "main" } "main" rfl
      (by decide) rfl⟩
